import Mathlib

/-!
Verification of the NexusAI provider-agnostic streaming orchestrator.

This file shallowly embeds the parts of the NexusAI TypeScript sources that the
verified properties talk about:

* the SSE stream decoders `parseSSE` / `parseOpenAISSE` (api.ts), including an
  explicit model of the WHATWG incremental UTF-8 decoder that backs
  `TextDecoder('utf-8').decode(bytes, { stream: true })`, a model of
  `JSON.parse`, and of the JavaScript truthiness / optional-chaining
  operations that the per-line extraction uses;
* the provider adapters `streamGemini` / `streamGroq` (their error behaviour
  on non-2xx responses) and the Gemini role mapping;
* the orchestrating `sendMessage` callback from context.tsx, modelled as a
  function from an application state, the user text, and a turn environment
  (fresh ids, clock values, the delivered stream chunks and an optional
  stream error) to the ordered list of side effects it performs plus the final
  state;
* the IndexedDB layer (db.ts): `saveChat`, `saveMessage`,
  `getMessagesByChat`, `getAllChats` over an explicit store state;
* the one-time sign-in merge from context.tsx (`loadFromCloud`);
* the memory-capture functions `shouldAutoSaveMemory` / `extractMemoryContent`
  (store.ts), backed by an executable backtracking matcher for the JavaScript
  regular expressions they use.

Numeric timestamps: the sources store `new Date().toISOString()` strings and
compare them via `new Date(s).getTime()`; the embedding models a timestamp
directly as its millisecond value (a `Nat`), which is order-isomorphic to the
ISO-string representation used by the code.
-/

namespace NexusAI

/-! ## JavaScript value model (results of `JSON.parse`) -/

/-- A JavaScript value produced by `JSON.parse`: null, booleans, numbers,
strings, arrays and plain objects.  A number is kept exactly as
`mantissa * 10 ^ exp10` as parsed from the literal. -/
inductive Json where
  | null
  | bool (b : Bool)
  | num (mantissa : Int) (exp10 : Int)
  | str (s : String)
  | arr (elems : List Json)
  | obj (fields : List (String × Json))
deriving Repr

/-- JSON whitespace (`ws` in ECMA-404): space, tab, newline, carriage return. -/
def jsonWs (c : Char) : Bool :=
  c = ' ' || c = Char.ofNat 9 || c = Char.ofNat 10 || c = Char.ofNat 13

def skipWs : List Char → List Char
  | [] => []
  | c :: cs => if jsonWs c then skipWs cs else c :: cs

def hexVal (c : Char) : Option Nat :=
  if '0' ≤ c ∧ c ≤ '9' then some (c.toNat - '0'.toNat)
  else if 'a' ≤ c ∧ c ≤ 'f' then some (c.toNat - 'a'.toNat + 10)
  else if 'A' ≤ c ∧ c ≤ 'F' then some (c.toNat - 'A'.toNat + 10)
  else none

/-- The double-quote character. -/
def dq : Char := Char.ofNat 34

/-- The backslash character. -/
def bsl : Char := Char.ofNat 92

/-- Decode one `\uXXXX` escape worth of payload (the four hex digits). -/
def hex4 (h1 h2 h3 h4 : Char) : Option Nat := do
  let a ← hexVal h1
  let b ← hexVal h2
  let c ← hexVal h3
  let d ← hexVal h4
  pure (((a * 16 + b) * 16 + c) * 16 + d)

/-- Parse the body of a JSON string literal (the opening quote already
consumed); returns the decoded characters and the remaining input.  Control
characters below U+0020 must be escaped, as in `JSON.parse`.  A `\uXXXX`
surrogate pair is combined into one scalar; a lone surrogate (legal in a
JavaScript string but not representable as a Unicode scalar) is modelled as
U+FFFD. -/
def parseStringBodyF : Nat → List Char → Option (List Char × List Char)
  | 0, _ => none
  | _, [] => none
  | fuel + 1, c :: cs =>
    if c = dq then some ([], cs)
    else if c = bsl then
      match cs with
      | [] => none
      | e :: cs' =>
        if e = dq then (parseStringBodyF fuel cs').map (fun r => (dq :: r.1, r.2))
        else if e = bsl then (parseStringBodyF fuel cs').map (fun r => (bsl :: r.1, r.2))
        else if e = '/' then (parseStringBodyF fuel cs').map (fun r => ('/' :: r.1, r.2))
        else if e = 'b' then (parseStringBodyF fuel cs').map (fun r => (Char.ofNat 8 :: r.1, r.2))
        else if e = 'f' then (parseStringBodyF fuel cs').map (fun r => (Char.ofNat 12 :: r.1, r.2))
        else if e = 'n' then (parseStringBodyF fuel cs').map (fun r => (Char.ofNat 10 :: r.1, r.2))
        else if e = 'r' then (parseStringBodyF fuel cs').map (fun r => (Char.ofNat 13 :: r.1, r.2))
        else if e = 't' then (parseStringBodyF fuel cs').map (fun r => (Char.ofNat 9 :: r.1, r.2))
        else if e = 'u' then
          match cs' with
          | h1 :: h2 :: h3 :: h4 :: rest =>
            match hex4 h1 h2 h3 h4 with
            | none => none
            | some n =>
              if 0xD800 ≤ n ∧ n ≤ 0xDBFF then
                match rest with
                | b1 :: u1 :: g1 :: g2 :: g3 :: g4 :: rest2 =>
                  if b1 = bsl ∧ u1 = 'u' then
                    match hex4 g1 g2 g3 g4 with
                    | some m =>
                      if 0xDC00 ≤ m ∧ m ≤ 0xDFFF then
                        (parseStringBodyF fuel rest2).map (fun r =>
                          (Char.ofNat (0x10000 + (n - 0xD800) * 0x400 + (m - 0xDC00)) :: r.1, r.2))
                      else (parseStringBodyF fuel rest).map (fun r => (Char.ofNat 0xFFFD :: r.1, r.2))
                    | none => (parseStringBodyF fuel rest).map (fun r => (Char.ofNat 0xFFFD :: r.1, r.2))
                  else (parseStringBodyF fuel rest).map (fun r => (Char.ofNat 0xFFFD :: r.1, r.2))
                | _ => (parseStringBodyF fuel rest).map (fun r => (Char.ofNat 0xFFFD :: r.1, r.2))
              else if 0xDC00 ≤ n ∧ n ≤ 0xDFFF then
                (parseStringBodyF fuel rest).map (fun r => (Char.ofNat 0xFFFD :: r.1, r.2))
              else
                (parseStringBodyF fuel rest).map (fun r => (Char.ofNat n :: r.1, r.2))
          | _ => none
        else none
    else if c.toNat < 0x20 then none
    else (parseStringBodyF fuel cs).map (fun r => (c :: r.1, r.2))

/-- Parse the body of a JSON string literal; the fuel `l.length + 1` always
suffices since every step consumes at least one character. -/
def parseStringBody (l : List Char) : Option (List Char × List Char) :=
  parseStringBodyF (l.length + 1) l

def isDigit (c : Char) : Bool := '0' ≤ c ∧ c ≤ '9'

def takeDigits : List Char → List Nat × List Char
  | [] => ([], [])
  | c :: cs =>
    if isDigit c then
      let r := takeDigits cs
      ((c.toNat - '0'.toNat) :: r.1, r.2)
    else ([], c :: cs)

def digitsToNat (ds : List Nat) : Nat := ds.foldl (fun acc d => acc * 10 + d) 0

/-- Parse a JSON number literal: `-? (0 | [1-9][0-9]*) frac? exp?`; the result
keeps the decimal mantissa and power-of-ten exponent exactly. -/
def parseNumber (input : List Char) : Option (Json × List Char) :=
  let (neg, afterSign) :=
    match input with
    | c :: cs => if c = '-' then (true, cs) else (false, input)
    | [] => (false, input)
  let (intDs, afterInt) := takeDigits afterSign
  match intDs with
  | [] => none
  | d0 :: drest =>
    if d0 = 0 ∧ drest ≠ [] then none
    else
      let (fracDs, afterFrac) :=
        match afterInt with
        | c :: cs =>
          if c = '.' then
            let r := takeDigits cs
            match r.1 with
            | [] => ([], [])  -- flag invalid by empty frac with marker below
            | _ => (r.1, r.2)
          else ([], afterInt)
        | [] => ([], afterInt)
      -- a '.' not followed by a digit is a parse error
      let fracBad : Bool :=
        match afterInt with
        | c :: cs => c == '.' && (takeDigits cs).1.isEmpty
        | [] => false
      if fracBad then none
      else
        let (expOk, expVal, afterExp) :=
          match afterFrac with
          | c :: cs =>
            if c = 'e' ∨ c = 'E' then
              let (esign, cs') :=
                match cs with
                | s :: cs'' => if s = '+' then (1, cs'') else if s = '-' then (-1, cs'') else (1, cs)
                | [] => ((1 : Int), cs)
              let r := takeDigits cs'
              match r.1 with
              | [] => (false, (0 : Int), afterFrac)
              | ds => (true, esign * (digitsToNat ds : Int), r.2)
            else (true, 0, afterFrac)
          | [] => (true, 0, afterFrac)
        if ¬ expOk then none
        else
          let mantNat := digitsToNat (intDs ++ fracDs)
          let mant : Int := if neg then -(mantNat : Int) else (mantNat : Int)
          some (.num mant (expVal - (fracDs.length : Int)), afterExp)

mutual

/-- Fuel-indexed recursive-descent parser for a JSON value.  A fuel of
`input.length + 2` always suffices, since every recursive descent first
consumes at least one input character. -/
def parseValue : Nat → List Char → Option (Json × List Char)
  | 0, _ => none
  | fuel + 1, input =>
    match skipWs input with
    | [] => none
    | c :: cs =>
      if c = dq then (parseStringBodyF fuel cs).map (fun r => (.str (String.mk r.1), r.2))
      else if c = Char.ofNat 123 then parseMembers fuel cs true
      else if c = Char.ofNat 91 then parseElems fuel cs true
      else
        match c :: cs with
        | 't' :: 'r' :: 'u' :: 'e' :: rest => some (.bool true, rest)
        | 'f' :: 'a' :: 'l' :: 's' :: 'e' :: rest => some (.bool false, rest)
        | 'n' :: 'u' :: 'l' :: 'l' :: rest => some (.null, rest)
        | l => parseNumber l

/-- Parse array elements after `[`; `first` is true before the first element. -/
def parseElems : Nat → List Char → Bool → Option (Json × List Char)
  | 0, _, _ => none
  | fuel + 1, input, first =>
    match skipWs input with
    | [] => none
    | c :: cs =>
      if c = Char.ofNat 93 then
        if first then some (.arr [], cs) else none
      else
        match parseValue fuel input with
        | none => none
        | some (v, rest) =>
          match skipWs rest with
          | [] => none
          | c' :: cs' =>
            if c' = ',' then
              match parseElems fuel cs' false with
              | some (.arr vs, rest') => some (.arr (v :: vs), rest')
              | _ => none
            else if c' = Char.ofNat 93 then some (.arr [v], cs')
            else none

/-- Parse object members after the opening brace; `first` is true before the
first member. -/
def parseMembers : Nat → List Char → Bool → Option (Json × List Char)
  | 0, _, _ => none
  | fuel + 1, input, first =>
    match skipWs input with
    | [] => none
    | c :: cs =>
      if c = Char.ofNat 125 then
        if first then some (.obj [], cs) else none
      else if c = dq then
        match parseStringBody cs with
        | none => none
        | some (key, afterKey) =>
          match skipWs afterKey with
          | ':' :: afterColon =>
            match parseValue fuel afterColon with
            | none => none
            | some (v, rest) =>
              match skipWs rest with
              | [] => none
              | c' :: cs' =>
                if c' = ',' then
                  match parseMembers fuel cs' false with
                  | some (.obj kvs, rest') => some (.obj ((String.mk key, v) :: kvs), rest')
                  | _ => none
                else if c' = Char.ofNat 125 then some (.obj [(String.mk key, v)], cs')
                else none
          | _ => none
      else none

end

/-- `JSON.parse`: parse one value and require only whitespace after it; any
violation of the JSON grammar yields `none` (the `SyntaxError` that the
decoders catch and swallow). -/
def jsonParse (s : String) : Option Json :=
  match parseValue (s.length + 2) s.data with
  | none => none
  | some (v, rest) =>
    match skipWs rest with
    | [] => some v
    | _ => none

/-! ## JavaScript operational helpers used by the decoders -/

/-- JavaScript string truthiness-relevant conversion of a property-access key:
`v[0]` coerces the index to the string "0"; we keep keys as strings and decode
canonical numeric keys back to indices for arrays and strings. -/
def strToIndex (k : String) : Option Nat :=
  match k.data with
  | [] => none
  | ds => if ds.all isDigit ∧ (ds.head? ≠ some '0' ∨ ds.length = 1)
      then some (digitsToNat (ds.map (fun c => c.toNat - '0'.toNat))) else none

/-- Object-key lookup as performed on the result of `JSON.parse`: later
duplicate keys overwrite earlier ones, so the last binding wins. -/
def lookupLast (fields : List (String × Json)) (k : String) : Option Json :=
  fields.foldl (fun acc kv => if kv.1 = k then some kv.2 else acc) none

/-- JavaScript property access `v[k]` on a parsed JSON value: field lookup on
objects (array indices coerce to their decimal strings), element access on
arrays, single-character access on strings, `length` on arrays and strings;
anything else is `undefined` (`none`). -/
def jsGetField (j : Json) (k : String) : Option Json :=
  match j with
  | .obj fields => lookupLast fields k
  | .arr xs =>
    if k = "length" then some (.num (xs.length : Int) 0)
    else (strToIndex k).bind fun n => xs.get? n
  | .str s =>
    if k = "length" then some (.num (s.length : Int) 0)
    else (strToIndex k).bind fun n => (s.data.get? n).map fun c => .str (String.mk [c])
  | _ => none

/-- Optional chaining `v?.[k]` / `v?.k`: `undefined` (`none`) and `null`
short-circuit to `undefined`; otherwise an ordinary property access. -/
def jsOptChain (v : Option Json) (k : String) : Option Json :=
  match v with
  | none => none
  | some .null => none
  | some j => jsGetField j k

/-- JavaScript truthiness of a possibly-`undefined` value: `undefined`,
`null`, `false`, `0` and the empty string are falsy; everything else is
truthy. -/
def jsTruthy (v : Option Json) : Bool :=
  match v with
  | none => false
  | some .null => false
  | some (.bool b) => b
  | some (.num m _) => m ≠ 0
  | some (.str s) => s ≠ ""
  | some (.arr _) => true
  | some (.obj _) => true

/-- The whitespace set of `String.prototype.trim` (WhiteSpace plus
LineTerminator). -/
def isJsSpace (c : Char) : Bool :=
  let n := c.toNat
  n = 0x9 || n = 0xA || n = 0xB || n = 0xC || n = 0xD || n = 0x20 || n = 0xA0 ||
  n = 0x1680 || (0x2000 ≤ n && n ≤ 0x200A) || n = 0x2028 || n = 0x2029 ||
  n = 0x202F || n = 0x205F || n = 0x3000 || n = 0xFEFF

/-- `String.prototype.trim` on a character list. -/
def jsTrim (l : List Char) : List Char :=
  ((l.dropWhile isJsSpace).reverse.dropWhile isJsSpace).reverse

/-! ## The SSE decoders of api.ts -/

/-- One normalized streaming event (`StreamChunk` in types.ts).  The decoders
yield `{ content: text, done: false }` for a text delta — where `text` is
whatever JavaScript value sat at the dialect-specific path — and
`{ content: '', done: true }` for a terminal marker. -/
structure StreamChunk where
  content : Json
  done : Bool

/-- Per-line extraction for the Gemini dialect (`parseSSE`, api.ts lines
148-151): token from `data.candidates?.[0]?.content?.parts?.[0]?.text`,
terminal marker from `data.candidates?.[0]?.finishReason`, each gated on
truthiness. -/
def geminiLineTokens (data : Json) : List StreamChunk :=
  let cand0 := jsOptChain (jsGetField data "candidates") "0"
  let text := jsOptChain (jsOptChain (jsOptChain cand0 "content") "parts") "0"
  let text := jsOptChain text "text"
  let finish := jsOptChain cand0 "finishReason"
  (if jsTruthy text then [⟨(text.getD .null), false⟩] else []) ++
  (if jsTruthy finish then [⟨.str "", true⟩] else [])

/-- Per-line extraction for the OpenAI-shaped dialect (`parseOpenAISSE`,
api.ts lines 177-180): token from `data.choices?.[0]?.delta?.content`,
terminal marker from `data.choices?.[0]?.finish_reason`. -/
def openaiLineTokens (data : Json) : List StreamChunk :=
  let choice0 := jsOptChain (jsGetField data "choices") "0"
  let text := jsOptChain (jsOptChain choice0 "delta") "content"
  let finish := jsOptChain choice0 "finish_reason"
  (if jsTruthy text then [⟨(text.getD .null), false⟩] else []) ++
  (if jsTruthy finish then [⟨.str "", true⟩] else [])

/-- The shared per-line step of both decoders (api.ts lines 143-155 and
172-184): a line must start with `data: `; the payload is sliced off and
trimmed; empty payloads and the literal `[DONE]` are skipped; the payload is
then parsed as JSON, a `SyntaxError` being swallowed (`catch \x7b \x7d`), and the
dialect extraction applied. -/
def lineTokens (extract : Json → List StreamChunk) (line : List Char) : List StreamChunk :=
  if line.take 6 = "data: ".data then
    let json := jsTrim (line.drop 6)
    if json ≠ [] ∧ json ≠ "[DONE]".data then
      match jsonParse (String.mk json) with
      | some data => extract data
      | none => []
    else []
  else []

/-! ### The incremental UTF-8 decoder

`TextDecoder('utf-8').decode(value, { stream: true })` is specified by the
WHATWG Encoding standard as a byte-at-a-time state machine; the fields below
are the standard's `UTF-8 code point`, `bytes seen`, `bytes needed` and the
two boundary registers.  Bytes of an incomplete sequence are carried across
`decode` calls, which is exactly what makes mid-character chunk splits safe. -/

structure Utf8State where
  codePoint : Nat
  bytesSeen : Nat
  bytesNeeded : Nat
  lowerBoundary : Nat
  upperBoundary : Nat
deriving Repr, DecidableEq

def Utf8State.init : Utf8State := ⟨0, 0, 0, 0x80, 0xBF⟩

def replChar : Char := Char.ofNat 0xFFFD

/-- Handle a byte in the initial state (no sequence in progress). -/
def utf8StartByte (b : Nat) : Utf8State × List Char :=
  if b ≤ 0x7F then (Utf8State.init, [Char.ofNat b])
  else if 0xC2 ≤ b ∧ b ≤ 0xDF then
    ({ codePoint := b % 0x20, bytesSeen := 0, bytesNeeded := 1,
       lowerBoundary := 0x80, upperBoundary := 0xBF }, [])
  else if 0xE0 ≤ b ∧ b ≤ 0xEF then
    ({ codePoint := b % 0x10, bytesSeen := 0, bytesNeeded := 2,
       lowerBoundary := if b = 0xE0 then 0xA0 else 0x80,
       upperBoundary := if b = 0xED then 0x9F else 0xBF }, [])
  else if 0xF0 ≤ b ∧ b ≤ 0xF4 then
    ({ codePoint := b % 0x8, bytesSeen := 0, bytesNeeded := 3,
       lowerBoundary := if b = 0xF0 then 0x90 else 0x80,
       upperBoundary := if b = 0xF4 then 0x8F else 0xBF }, [])
  else (Utf8State.init, [replChar])

/-- The WHATWG UTF-8 decoder step for one byte.  An out-of-range continuation
byte emits U+FFFD and is reprocessed in the initial state (the standard's
"prepend byte to stream"). -/
def utf8DecodeByte (st : Utf8State) (b : Nat) : Utf8State × List Char :=
  if st.bytesNeeded = 0 then utf8StartByte b
  else if st.lowerBoundary ≤ b ∧ b ≤ st.upperBoundary then
    let cp := st.codePoint * 64 + b % 0x40
    if st.bytesSeen + 1 = st.bytesNeeded then (Utf8State.init, [Char.ofNat cp])
    else ({ codePoint := cp, bytesSeen := st.bytesSeen + 1, bytesNeeded := st.bytesNeeded,
            lowerBoundary := 0x80, upperBoundary := 0xBF }, [])
  else
    let r := utf8StartByte b
    (r.1, replChar :: r.2)

/-- Decode one chunk of bytes, threading the decoder state (one call of
`decoder.decode(value, { stream: true })`). -/
def utf8DecodeChunk (st : Utf8State) : List Nat → Utf8State × List Char
  | [] => (st, [])
  | b :: bs =>
    let r1 := utf8DecodeByte st b
    let r2 := utf8DecodeChunk r1.1 bs
    (r2.1, r1.2 ++ r2.2)

/-! ### Line reassembly

The decoders keep a string `buffer`, append each decoded chunk, split on
newlines, and keep the final (possibly incomplete) segment as the new buffer
(`const lines = buffer.split('\n'); buffer = lines.pop() || ''`).
`splitLines l` returns the complete lines of `l` and the trailing segment. -/

def nl : Char := Char.ofNat 10

def splitLines : List Char → List (List Char) × List Char
  | [] => ([], [])
  | c :: cs =>
    let r := splitLines cs
    if c = nl then ([] :: r.1, r.2)
    else
      match r with
      | ([], rest) => ([], c :: rest)
      | (l :: ls, rest) => ((c :: l) :: ls, rest)

/-- The running state of one decoder loop: the `TextDecoder` state, the line
buffer, and the tokens yielded so far. -/
structure SSEState where
  dec : Utf8State
  buffer : List Char
  out : List StreamChunk

def SSEState.init : SSEState := ⟨Utf8State.init, [], []⟩

/-- One iteration of the `while (true)` reader loop of `parseSSE` /
`parseOpenAISSE` on a received chunk: incremental UTF-8 decode, line
reassembly, then the per-line processing of every complete line, in order. -/
def feedChunk (extract : Json → List StreamChunk) (st : SSEState) (chunk : List Nat) :
    SSEState :=
  let d := utf8DecodeChunk st.dec chunk
  let sp := splitLines (st.buffer ++ d.2)
  ⟨d.1, sp.2, st.out ++ sp.1.flatMap (lineTokens extract)⟩

/-- Run a decoder over the sequence of chunks delivered by the reader; when
the reader reports `done`, the loop exits and the (possibly non-empty) buffer
and any incomplete UTF-8 sequence are discarded. -/
def sseDecode (extract : Json → List StreamChunk) (chunks : List (List Nat)) :
    List StreamChunk :=
  (chunks.foldl (feedChunk extract) SSEState.init).out

/-- `parseSSE` (api.ts lines 130-157): the Gemini-dialect SSE decoder, as a
function from the delivered byte chunks to the yielded token sequence. -/
def parseSSE (chunks : List (List Nat)) : List StreamChunk :=
  sseDecode geminiLineTokens chunks

/-- `parseOpenAISSE` (api.ts lines 159-186): the OpenAI-dialect SSE decoder. -/
def parseOpenAISSE (chunks : List (List Nat)) : List StreamChunk :=
  sseDecode openaiLineTokens chunks

/-! ### Chunk-boundary invariance -/

theorem utf8DecodeChunk_append (st : Utf8State) (a b : List Nat) :
    utf8DecodeChunk st (a ++ b) =
      ((utf8DecodeChunk (utf8DecodeChunk st a).1 b).1,
       (utf8DecodeChunk st a).2 ++ (utf8DecodeChunk (utf8DecodeChunk st a).1 b).2) := by
  induction a generalizing st with
  | nil => simp [utf8DecodeChunk]
  | cons x xs ih => simp [utf8DecodeChunk, ih]

theorem splitLines_append (u v : List Char) :
    splitLines (u ++ v) =
      ((splitLines u).1 ++ (splitLines ((splitLines u).2 ++ v)).1,
       (splitLines ((splitLines u).2 ++ v)).2) := by
  induction u with
  | nil => simp [splitLines]
  | cons c cs ih =>
    by_cases hc : c = nl
    · subst hc
      simp [splitLines, ih]
    · rcases h1 : splitLines cs with ⟨A, bu⟩
      rcases hA : A with _ | ⟨a, as⟩
      · rcases h2 : splitLines (bu ++ v) with ⟨B, brest⟩
        rcases hB : B with _ | ⟨b0, bs⟩ <;>
          simp_all [List.cons_append, splitLines, if_neg hc, ih, h1, h2]
      · simp_all [List.cons_append, splitLines, if_neg hc, ih, h1]

theorem feedChunk_append (ex : Json → List StreamChunk) (st : SSEState) (a b : List Nat) :
    feedChunk ex (feedChunk ex st a) b = feedChunk ex st (a ++ b) := by
  simp only [feedChunk, utf8DecodeChunk_append st.dec a b]
  rw [← List.append_assoc, splitLines_append (st.buffer ++ (utf8DecodeChunk st.dec a).2)]
  simp [List.flatMap_append, List.append_assoc]

theorem foldl_feedChunk (ex : Json → List StreamChunk) :
    ∀ (chunks : List (List Nat)) (st : SSEState), chunks ≠ [] →
      chunks.foldl (feedChunk ex) st = feedChunk ex st chunks.flatten := by
  intro chunks
  induction chunks with
  | nil => intro st h; exact absurd rfl h
  | cons c cs ih =>
    intro st _
    by_cases hcs : cs = []
    · subst hcs; simp [List.foldl]
    · rw [List.foldl_cons, ih (feedChunk ex st c) hcs, feedChunk_append]
      simp

theorem sseDecode_join (ex : Json → List StreamChunk) (chunks : List (List Nat)) :
    sseDecode ex chunks = sseDecode ex [chunks.flatten] := by
  rcases h : chunks with _ | ⟨c, cs⟩
  · simp [sseDecode, feedChunk, utf8DecodeChunk, splitLines, SSEState.init]
  · rw [sseDecode, sseDecode, foldl_feedChunk ex (c :: cs) _ (by simp)]
    simp [List.foldl]

/-- C1.  For both vendor dialects, decoding a byte stream delivered as an
arbitrary partition into chunks — including splits in the middle of a line or
of a multi-byte UTF-8 character — yields exactly the token sequence of
decoding the whole stream delivered as one chunk. -/
theorem chunk_boundary_invariance (chunks : List (List Nat)) :
    parseSSE chunks = parseSSE [chunks.flatten] ∧
    parseOpenAISSE chunks = parseOpenAISSE [chunks.flatten] :=
  ⟨sseDecode_join geminiLineTokens chunks, sseDecode_join openaiLineTokens chunks⟩

/-! ### Malformed single frames are swallowed, not fatal

By `chunk_boundary_invariance` the byte-level decoders reduce to: UTF-8
decode the whole stream, reassemble lines, and process each complete line
with `lineTokens`.  `lineStreamTokens` is exactly that line-level stage (the
composition used inside `feedChunk`), applied to fully decoded text. -/

/-- Join SSE lines into one wire text, each line terminated by `\n`. -/
def unlines (ls : List (List Char)) : List Char := (ls.map (fun l => l ++ [nl])).flatten

/-- The line-processing stage of the decoders: split into complete lines and
process each with the per-line step, in order. -/
def lineStreamTokens (extract : Json → List StreamChunk) (text : List Char) :
    List StreamChunk :=
  (splitLines text).1.flatMap (lineTokens extract)

theorem splitLines_line (l t : List Char) (h : nl ∉ l) :
    splitLines (l ++ nl :: t) = (l :: (splitLines t).1, (splitLines t).2) := by
  induction l with
  | nil => simp [splitLines]
  | cons c l' ih =>
    have hc : c ≠ nl := fun hcn => h (hcn ▸ List.mem_cons_self c l')
    have ih' := ih (fun hm => h (List.mem_cons_of_mem c hm))
    simp [splitLines, ih', if_neg hc]

theorem splitLines_unlines (ls : List (List Char)) (h : ∀ l ∈ ls, nl ∉ l) :
    splitLines (unlines ls) = (ls, []) := by
  induction ls with
  | nil => simp [unlines, splitLines]
  | cons l ls ih =>
    have h1 : nl ∉ l := h l (List.mem_cons_self l ls)
    have h2 := ih (fun x hx => h x (List.mem_cons_of_mem l hx))
    simp only [unlines, List.map_cons, List.flatten_cons, List.append_assoc,
      List.cons_append, List.nil_append]
    rw [splitLines_line l _ h1]
    simp only [unlines] at h2
    rw [h2]

theorem lineTokens_malformed (extract : Json → List StreamChunk) (bad : List Char)
    (hdata : bad.take 6 = "data: ".data)
    (hmal : jsonParse (String.mk (jsTrim (bad.drop 6))) = none) :
    lineTokens extract bad = [] := by
  rw [lineTokens, if_pos hdata]
  by_cases hg : jsTrim (List.drop 6 bad) ≠ [] ∧ jsTrim (List.drop 6 bad) ≠ "[DONE]".data
  · rw [if_pos hg, hmal]
  · rw [if_neg hg]

/-- C2.  A malformed-JSON `data:` line interleaved among valid frames
produces no token and does not abort the stream: the decoder emits exactly
the tokens of the frames before it followed by the tokens of the frames after
it, each extracted in original order. -/
theorem malformed_frame_skipped (extract : Json → List StreamChunk)
    (pre post : List (List Char)) (bad : List Char)
    (hpre : ∀ l ∈ pre, nl ∉ l) (hpost : ∀ l ∈ post, nl ∉ l) (hbad : nl ∉ bad)
    (hdata : bad.take 6 = "data: ".data)
    (hmal : jsonParse (String.mk (jsTrim (bad.drop 6))) = none) :
    lineStreamTokens extract (unlines (pre ++ bad :: post)) =
      pre.flatMap (lineTokens extract) ++ post.flatMap (lineTokens extract) := by
  have hall : ∀ l ∈ pre ++ bad :: post, nl ∉ l := by
    intro l hl
    rcases List.mem_append.mp hl with h | h
    · exact hpre l h
    · rcases List.mem_cons.mp h with h | h
      · exact h ▸ hbad
      · exact hpost l h
  rw [lineStreamTokens, splitLines_unlines _ hall]
  simp [lineTokens_malformed extract bad hdata hmal]

/-- A valid Gemini frame used by the C2 witness. -/
def goodFrameLine : List Char :=
  ("data: \x7b\"candidates\":[\x7b\"content\":\x7b\"parts\":[\x7b\"text\":\"Hi\"\x7d]\x7d\x7d]\x7d").data

/-- A `data:` line whose payload is not valid JSON, used by the C2 witness. -/
def badFrameLine : List Char := ("data: \x7b\"candidates\": oops").data

/-- Witness for C2 at a concrete stream: one valid frame before and one after
a malformed line. -/
theorem malformed_frame_skipped_witness :
    (∀ l ∈ [goodFrameLine], nl ∉ l) ∧ nl ∉ badFrameLine ∧
    badFrameLine.take 6 = "data: ".data ∧
    jsonParse (String.mk (jsTrim (badFrameLine.drop 6))) = none ∧
    lineStreamTokens geminiLineTokens (unlines ([goodFrameLine] ++ badFrameLine :: [goodFrameLine])) =
      [goodFrameLine].flatMap (lineTokens geminiLineTokens) ++
      [goodFrameLine].flatMap (lineTokens geminiLineTokens) :=
  ⟨by decide, by decide, by decide, rfl,
    malformed_frame_skipped geminiLineTokens [goodFrameLine] [goodFrameLine] badFrameLine
      (by decide) (by decide) (by decide) (by decide) rfl⟩

/-! ## Provider adapters (api.ts)

The network is environmental: an adapter is modelled as a function of the
`fetch` response it receives.  `res.ok` is true exactly for 2xx status
codes. -/

structure HttpResponse where
  status : Nat
  body : List (List Nat)

def HttpResponse.ok (r : HttpResponse) : Bool := 200 ≤ r.status && r.status < 300

/-- One element of the `messages` argument of the adapters:
`\x7b role, content \x7d`. -/
structure ChatMsg where
  role : String
  content : String

/-- One element of the Gemini request's `contents` array. -/
structure GeminiContent where
  role : String
  parts : List String
deriving DecidableEq, Repr

/-- The request-body mapping of `streamGemini` (api.ts lines 26-29):
`role: m.role === 'assistant' ? 'model' : 'user'`. -/
def geminiContents (messages : List ChatMsg) : List GeminiContent :=
  messages.map fun m => ⟨if m.role = "assistant" then "model" else "user", [m.content]⟩

/-- `streamGemini` after the fetch (api.ts lines 34-41): a non-ok response
throws `Error('Gemini API error')` before anything is yielded; an ok response
streams `parseSSE` over the body. -/
def streamGemini (res : HttpResponse) : Except String (List StreamChunk) :=
  if res.ok then .ok (parseSSE res.body) else .error "Gemini API error"

/-- `streamGroq` after the fetch (api.ts lines 64-71). -/
def streamGroq (res : HttpResponse) : Except String (List StreamChunk) :=
  if res.ok then .ok (parseOpenAISSE res.body) else .error "Groq API error"

/-- C8 (amended).  A response with non-2xx status yields a thrown error
before any event is produced and zero tokens are emitted — never a
zero-length successful stream; but the error is the one generic
`Error('... API error')` of each adapter, with no status-dependent typing. -/
theorem nonOk_response_fails_with_zero_tokens (res : HttpResponse)
    (h : res.ok = false) :
    streamGemini res = .error "Gemini API error" ∧
    streamGroq res = .error "Groq API error" := by
  constructor <;> simp [streamGemini, streamGroq, h]

theorem nonOk_response_fails_with_zero_tokens_witness :
    (HttpResponse.mk 401 []).ok = false ∧
    streamGemini ⟨401, []⟩ = .error "Gemini API error" ∧
    streamGroq ⟨401, []⟩ = .error "Groq API error" :=
  ⟨by decide, nonOk_response_fails_with_zero_tokens ⟨401, []⟩ (by decide)⟩

/-- C8 counterexample.  The claim promises a typed distinction — `AuthError`
for an invalid credential (401) and `UnavailableError` for a 5xx — but a 401
response and a 503 response produce the very same untyped
`Error('Gemini API error')`: no such distinction exists in the code. -/
theorem nonOk_response_untyped_error :
    streamGemini ⟨401, []⟩ = streamGemini ⟨503, []⟩ ∧
    streamGemini ⟨401, []⟩ = .error "Gemini API error" ∧
    streamGroq ⟨401, []⟩ = streamGroq ⟨503, []⟩ :=
  ⟨rfl, rfl, rfl⟩

/-- C10.  The Gemini adapter maps role `assistant` to `model` and every other
role — including `system` — to `user`: a system-role message in the history
reaches the Gemini request as a plain user turn. -/
theorem gemini_system_role_sent_as_user :
    (∀ msgs : List ChatMsg,
      (geminiContents msgs).map (fun g => g.role) =
        msgs.map (fun m => if m.role = "assistant" then "model" else "user")) ∧
    (∀ content : String,
      geminiContents [⟨"system", content⟩] = [⟨"user", [content]⟩]) ∧
    (∀ content : String,
      geminiContents [⟨"assistant", content⟩] = [⟨"model", [content]⟩]) := by
  refine ⟨fun msgs => ?_, fun content => ?_, fun content => ?_⟩ <;>
    simp [geminiContents]

/-! ## A JavaScript regular-expression matcher

The memory-capture functions of store.ts are driven by JavaScript regular
expressions (all carrying the `i` flag).  The embedding gives them an
executable backtracking matcher with JavaScript semantics: leftmost match,
left-first alternation, greedy/lazy quantifiers, `\b`, `\w`, `\s`, `.`
(anything but a line terminator), `^`/`$` without the `m` flag, and numbered
capture groups where the last iteration of a group wins. -/

inductive CharCls where
  | word
  | space
  | dot
  | lit (c : Char)
  | oneOf (cs : List Char) (withSpace : Bool)

def isWordChar (c : Char) : Bool :=
  ('a' ≤ c && c ≤ 'z') || ('A' ≤ c && c ≤ 'Z') || ('0' ≤ c && c ≤ '9') || c = '_'

def clsMatch : CharCls → Char → Bool
  | .word, c => isWordChar c
  | .space, c => isJsSpace c
  | .dot, c => !(c.toNat = 0xA || c.toNat = 0xD || c.toNat = 0x2028 || c.toNat = 0x2029)
  | .lit l, c => c.toLower = l
  | .oneOf cs ws, c => cs.contains c || (ws && isJsSpace c)

inductive RE where
  | eps
  | cls (k : CharCls)
  | seq (a b : RE)
  | alt (a b : RE)
  | star (greedy : Bool) (a : RE)
  | opt (greedy : Bool) (a : RE)
  | grp (n : Nat) (a : RE)
  | wordB
  | bos
  | eos

/-- Captured groups: `(group index, start, stop)`, most recent first. -/
abbrev Caps := List (Nat × Nat × Nat)

def wordAt (s : List Char) (i : Nat) : Bool :=
  match s.get? i with
  | some c => isWordChar c
  | none => false

def atWordBoundary (s : List Char) (i : Nat) : Bool :=
  (decide (i ≠ 0) && wordAt s (i - 1)) != wordAt s i

/-- The continuation-passing backtracking matcher.  `fuel` only bounds the
recursion depth; every quantifier iteration must consume input, so a fuel
proportional to pattern size times input length always suffices. -/
def reRun (s : List Char) :
    Nat → RE → Nat → Caps → (Nat → Caps → Option (Nat × Caps)) → Option (Nat × Caps)
  | 0, _, _, _, _ => none
  | fuel + 1, re, i, caps, k =>
    match re with
    | .eps => k i caps
    | .cls kc =>
      match s.get? i with
      | some c => if clsMatch kc c then k (i + 1) caps else none
      | none => none
    | .seq a b => reRun s fuel a i caps fun j caps' => reRun s fuel b j caps' k
    | .alt a b =>
      match reRun s fuel a i caps k with
      | some r => some r
      | none => reRun s fuel b i caps k
    | .star g a =>
      if g then
        match reRun s fuel a i caps
            (fun j caps' => if j = i then none else reRun s fuel (.star true a) j caps' k) with
        | some r => some r
        | none => k i caps
      else
        match k i caps with
        | some r => some r
        | none =>
          reRun s fuel a i caps
            fun j caps' => if j = i then none else reRun s fuel (.star false a) j caps' k
    | .opt g a =>
      if g then
        match reRun s fuel a i caps k with
        | some r => some r
        | none => k i caps
      else
        match k i caps with
        | some r => some r
        | none => reRun s fuel a i caps k
    | .grp n a => reRun s fuel a i caps fun j caps' => k j ((n, i, j) :: caps')
    | .wordB => if atWordBoundary s i then k i caps else none
    | .bos => if i = 0 then k i caps else none
    | .eos => if i = s.length then k i caps else none

def reSize : RE → Nat
  | .eps => 1
  | .cls _ => 1
  | .seq a b => reSize a + reSize b + 1
  | .alt a b => reSize a + reSize b + 1
  | .star _ a => reSize a + 1
  | .opt _ a => reSize a + 1
  | .grp _ a => reSize a + 1
  | .wordB => 1
  | .bos => 1
  | .eos => 1

/-- Attempt a match of `re` at position `i` of `s`. -/
def reMatchAt (re : RE) (s : List Char) (i : Nat) : Option (Nat × Caps) :=
  reRun s ((reSize re + 4) * (s.length + 4)) re i [] fun j caps => some (j, caps)

def reSearchAux (re : RE) (s : List Char) : Nat → Nat → Option (Nat × Nat × Caps)
  | 0, _ => none
  | f + 1, i =>
    match reMatchAt re s i with
    | some (j, caps) => some (i, j, caps)
    | none => if i < s.length then reSearchAux re s f (i + 1) else none

/-- `String.prototype.match` without the `g` flag: the leftmost match,
returned as `(start, stop, captures)`. -/
def reSearch (re : RE) (s : List Char) : Option (Nat × Nat × Caps) :=
  reSearchAux re s (s.length + 1) 0

def sliceStr (s : List Char) (a b : Nat) : String := String.mk ((s.drop a).take (b - a))

/-- `match[n]`: the text of capture group `n`, `undefined` when the group did
not participate. -/
def matchGroup (r : Option (Nat × Nat × Caps)) (s : List Char) (n : Nat) : Option String :=
  match r with
  | none => none
  | some (_, _, caps) => (caps.find? fun e => e.1 = n).map fun e => sliceStr s e.2.1 e.2.2

/-- `s.replace(re, '')` for a non-global regex: delete the leftmost match. -/
def jsReplaceOnce (re : RE) (s : List Char) : List Char :=
  match reSearch re s with
  | none => s
  | some (a, b, _) => s.take a ++ s.drop b

/-! ### Pattern combinators and the store.ts patterns -/

def seqN : List RE → RE
  | [] => .eps
  | [r] => r
  | r :: rs => .seq r (seqN rs)

def altN : List RE → RE
  | [] => .eps
  | [r] => r
  | r :: rs => .alt r (altN rs)

/-- A case-insensitive literal word (the patterns are written lowercase and
all carry the `i` flag). -/
def lit (w : String) : RE := seqN (w.data.map fun c => .cls (.lit c))

def plusRE (g : Bool) (r : RE) : RE := .seq r (.star g r)

def spPlus : RE := plusRE true (.cls .space)

def spStar : RE := .star true (.cls .space)

def wordPlus : RE := plusRE true (.cls .word)

def dotPlus (g : Bool) : RE := plusRE g (.cls .dot)

def apost : Char := Char.ofNat 39

/-- `/\bmy\s+name\s+is\s+(\w+)/i` -/
def nameRe1 : RE := seqN [.wordB, lit "my", spPlus, lit "name", spPlus, lit "is", spPlus, .grp 1 wordPlus]

/-- `/\bi\s+am\s+(\w+)/i` -/
def nameRe2 : RE := seqN [.wordB, lit "i", spPlus, lit "am", spPlus, .grp 1 wordPlus]

/-- `/\bcall\s+me\s+(\w+)/i` -/
def nameRe3 : RE := seqN [.wordB, lit "call", spPlus, lit "me", spPlus, .grp 1 wordPlus]

/-- `/\b(?:remember|don'?t\s+forget)\s+that\s+(.+)/i` -/
def rememberRe : RE :=
  seqN [.wordB,
    .alt (lit "remember") (seqN [lit "don", .opt true (.cls (.lit apost)), lit "t", spPlus, lit "forget"]),
    spPlus, lit "that", spPlus, .grp 1 (dotPlus true)]

/-- `/\b(?:save|store|remember|memorize)\s*(?:this|that|it)?\s*(?:in\s+(?:your\s+)?memory)?\s*[:\-]\s*(.+)/i` -/
def colonRe : RE :=
  seqN [.wordB, altN [lit "save", lit "store", lit "remember", lit "memorize"], spStar,
    .opt true (altN [lit "this", lit "that", lit "it"]), spStar,
    .opt true (seqN [lit "in", spPlus, .opt true (seqN [lit "your", spPlus]), lit "memory"]), spStar,
    .cls (.oneOf [':', '-'] false), spStar, .grp 1 (dotPlus true)]

/-- `/^(.+?)[,;]\s*(?:save|remember|store|memorize)\s+(?:this|that|it)\s*[.!]?\s*$/i` -/
def beforeSaveRe : RE :=
  seqN [.bos, .grp 1 (dotPlus false), .cls (.oneOf [',', ';'] false), spStar,
    altN [lit "save", lit "remember", lit "store", lit "memorize"], spPlus,
    altN [lit "this", lit "that", lit "it"], spStar,
    .opt true (.cls (.oneOf ['.', '!'] false)), spStar, .eos]

/-- `/^(.+?)[\s,]*(?:save|remember|store|memorize)\s*(?:this|that|it)?(?:\s+(?:in|to)\s+(?:your\s+)?memory)?\s*[.!]?\s*$/i` -/
def genericSaveRe : RE :=
  seqN [.bos, .grp 1 (dotPlus false), .star true (.cls (.oneOf [','] true)),
    altN [lit "save", lit "remember", lit "store", lit "memorize"], spStar,
    .opt true (altN [lit "this", lit "that", lit "it"]),
    .opt true (seqN [spPlus, .alt (lit "in") (lit "to"), spPlus,
      .opt true (seqN [lit "your", spPlus]), lit "memory"]), spStar,
    .opt true (.cls (.oneOf ['.', '!'] false)), spStar, .eos]

/-- `/^(?:save|remember|store|memorize)\s*(?:this|that|it)?\s*[.!]?\s*$/i` -/
def bareTriggerRe : RE :=
  seqN [.bos, altN [lit "save", lit "remember", lit "store", lit "memorize"], spStar,
    .opt true (altN [lit "this", lit "that", lit "it"]), spStar,
    .opt true (.cls (.oneOf ['.', '!'] false)), spStar, .eos]

/-- `/^(?:my\s+)?(\w+(?:\s+\w+)?)\s+(?:is|are)\s+/i` (title extraction) -/
def titleRe : RE :=
  seqN [.bos, .opt true (seqN [lit "my", spPlus]),
    .grp 1 (seqN [wordPlus, .opt true (seqN [spPlus, wordPlus])]), spPlus,
    .alt (lit "is") (lit "are"), spPlus]

/-- `/[.!,\s]+$/` -/
def strip1Re : RE := seqN [plusRE true (.cls (.oneOf ['.', '!', ','] true)), .eos]

/-- `/[,;]\s*$/` -/
def strip2Re : RE := seqN [.cls (.oneOf [',', ';'] false), spStar, .eos]

/-- The 15 `SAVE_PATTERNS` of store.ts lines 218-240, in order.  `.test`
ignores capture groups, so the capturing parentheses of the source are
encoded as plain groupings. -/
def SAVE_PATTERNS : List RE :=
  [ seqN [.wordB, altN [lit "save", lit "remember", lit "store", lit "keep", lit "note", lit "memorize"],
      spPlus, altN [lit "this", lit "that", lit "it"], .wordB],
    seqN [.wordB, altN [lit "save", lit "store", lit "put", lit "add", lit "keep"], spPlus,
      .opt true (seqN [lit "this", spPlus]), .alt (lit "in") (lit "to"), spPlus,
      .opt true (seqN [lit "your", spPlus]), lit "memory", .wordB],
    seqN [.wordB, lit "save", spPlus, .opt true (seqN [lit "this", spPlus]), lit "in", spPlus,
      lit "your", spPlus, lit "memory", .wordB],
    seqN [.wordB, lit "memorize", spPlus, .opt true (altN [lit "this", lit "that", lit "it"]), .wordB],
    seqN [.wordB, lit "add", spPlus, .opt true (seqN [lit "this", spPlus]), lit "to", spPlus,
      .opt true (seqN [lit "your", spPlus]), lit "memory", .wordB],
    nameRe1,
    nameRe2,
    nameRe3,
    seqN [.wordB, lit "remember", spPlus, lit "that", spPlus, dotPlus true],
    seqN [.wordB, lit "save", spPlus, dotPlus true, spPlus, lit "to", spPlus, lit "memory"],
    seqN [.wordB, lit "store", spPlus, lit "in", spPlus, lit "memory", .wordB],
    seqN [.wordB, lit "don", .opt true (.cls (.lit apost)), lit "t", spPlus, lit "forget", .wordB],
    seqN [.wordB, lit "keep", spPlus, lit "in", spPlus, lit "mind", .wordB],
    seqN [.wordB, lit "please", spPlus, altN [lit "save", lit "remember", lit "store", lit "memorize"], .wordB],
    seqN [.opt true (.cls (.lit ',')), spStar,
      altN [seqN [lit "save", spPlus, lit "it"], seqN [lit "remember", spPlus, lit "it"],
        seqN [lit "memorize", spPlus, lit "it"], seqN [lit "store", spPlus, lit "it"]],
      spStar, .opt true (.cls (.oneOf ['.', '!'] false)), spStar, .eos] ]

/-- `shouldAutoSaveMemory` (store.ts lines 242-244). -/
def shouldAutoSaveMemory (content : String) : Bool :=
  SAVE_PATTERNS.any fun p => (reSearch p content.data).isSome

/-- The `Memory['type']` union of types.ts. -/
inductive MemType where
  | user_profile
  | preference
  | fact
deriving DecidableEq, Repr

/-- The result shape of `extractMemoryContent`:
`\x7b title, value, type \x7d`. -/
structure Extracted where
  title : String
  value : String
  type : MemType
deriving DecidableEq, Repr

/-- `titleMatch[1].charAt(0).toUpperCase() + titleMatch[1].slice(1)`. -/
def capitalizeFirst (t : String) : String :=
  match t.data with
  | [] => ""
  | c :: cs => String.mk (c.toUpper :: cs)

/-- `extractMemoryContent` (store.ts lines 246-301), block by block: name
extraction, `remember that ...`, the colon form, the `content, save it` form,
the generic trailing-trigger form, then `null`. -/
def extractMemoryContent (content : String) : Option Extracted :=
  let s := content.data
  let nameM := ((reSearch nameRe1 s).orElse fun _ => reSearch nameRe2 s).orElse
    fun _ => reSearch nameRe3 s
  match matchGroup nameM s 1 with
  | some name => some ⟨"Name", name, .user_profile⟩
  | none =>
    match matchGroup (reSearch rememberRe s) s 1 with
    | some cap => some ⟨"Fact", String.mk (jsTrim (jsReplaceOnce strip1Re cap.data)), .fact⟩
    | none =>
      let step5 : Option Extracted :=
        match matchGroup (reSearch genericSaveRe s) s 1 with
        | some cap =>
          let value := String.mk (jsReplaceOnce strip2Re (jsTrim cap.data))
          if value ≠ "" ∧ value.length > 2 then
            let title :=
              match matchGroup (reSearch titleRe value.data) value.data 1 with
              | some t => capitalizeFirst t
              | none => "Note"
            some ⟨title, value, .fact⟩
          else none
        | none => none
      let step4 : Option Extracted :=
        match matchGroup (reSearch beforeSaveRe s) s 1 with
        | some cap =>
          let value := String.mk (jsTrim cap.data)
          if value ≠ "" then
            let title :=
              match matchGroup (reSearch titleRe value.data) value.data 1 with
              | some t => capitalizeFirst t
              | none => "Note"
            some ⟨title, value, .fact⟩
          else step5
        | none => step5
      match matchGroup (reSearch colonRe s) s 1 with
      | some cap =>
        let value := String.mk (jsReplaceOnce strip1Re (jsTrim cap.data))
        if value ≠ "" then some ⟨"Note", value, .fact⟩ else step4
      | none => step4

/-- C7.  The memory-capture extraction maps "remember that the sky is blue"
to a fact with content "the sky is blue", and "my name is Ada" to a
profile-type memory (the source's `user_profile`, called `profile-fact` in
the specification) with title "Name" and content "Ada". -/
theorem memory_capture_extraction :
    extractMemoryContent "remember that the sky is blue" =
      some ⟨"Fact", "the sky is blue", .fact⟩ ∧
    extractMemoryContent "my name is Ada" = some ⟨"Name", "Ada", .user_profile⟩ :=
  ⟨rfl, rfl⟩

/-! ## Data model (types.ts) -/

inductive Role where
  | user
  | assistant
  | system
deriving DecidableEq, Repr

def Role.toStr : Role → String
  | .user => "user"
  | .assistant => "assistant"
  | .system => "system"

/-- `Chat` of types.ts. -/
structure Chat where
  id : String
  title : String
  providerId : String
  modelId : String
  memoryEnabled : Bool
  createdAt : Nat
  updatedAt : Nat
deriving DecidableEq, Repr

/-- `Message` of types.ts.  The optional `webResult` / `pdfUrl` attachments
are never written by the flows modelled here (context.tsx `sendMessage` and
db.ts) and are omitted. -/
structure Message where
  id : String
  chatId : String
  role : Role
  content : String
  createdAt : Nat
deriving DecidableEq, Repr

/-- `Memory` of types.ts. -/
structure Memory where
  id : String
  type : MemType
  title : String
  content : String
  enabled : Bool
  createdAt : Nat
deriving DecidableEq, Repr

inductive PromptMode where
  | standard
  | compact
  | developer
  | coder
deriving DecidableEq, Repr

/-- The slice of the React `AppState` that `sendMessage` reads and writes. -/
structure AppState where
  apiKeys : List (String × String)
  currentProviderId : Option String
  currentModelId : Option String
  currentChatId : Option String
  promptMode : PromptMode
  chats : List Chat
  messages : List Message
  memories : List Memory
  memoryEnabled : Bool
  view : String
  isStreaming : Bool
  streamingContent : String
deriving DecidableEq, Repr

/-! ## The session orchestrator: `sendMessage` (context.tsx lines 325-448)

`sendMessage` is embedded as a function of the pre-call state, the user text,
and a *turn environment* carrying everything the runtime supplies: the ids
`db.generateId()` returns, the `Date.now()` clock values, the stream chunks
the decoder delivers, and the error (if any) that the adapter or the network
raises after those chunks.  Its result is the ordered list of externally
visible effects plus the final state (the net result of its `setState`
functional updates). -/

inductive ToastKind where
  | success
  | error
  | info
deriving DecidableEq, Repr

inductive Effect where
  | saveChat (c : Chat)
  | saveMessage (m : Message)
  | saveMemory (m : Memory)
  | toast (msg : String) (kind : ToastKind)
  | streamRequest (providerId apiKey modelId : String)
      (messages : List (String × String)) (systemPrompt : String)
deriving DecidableEq, Repr

structure TurnEnv where
  chatId : String
  userMsgId : String
  assistantMsgId : String
  memoryId : String
  nowChat : Nat
  nowUser : Nat
  nowMemory : Nat
  nowAssistant : Nat
  delivered : List StreamChunk
  error : Option String

/-- JavaScript falsiness of a possibly-missing string (`!state.currentProviderId`):
`undefined`, `null` and the empty string are falsy. -/
def jsFalsyOptStr : Option String → Bool
  | none => true
  | some s => s == ""

/-- `state.apiKeys[providerId]` (a plain object lookup). -/
def jsLookup (l : List (String × String)) (k : String) : Option String :=
  (l.find? fun kv => kv.1 = k).map fun kv => kv.2

mutual

/-- `String()` conversion of a parsed JSON value, used when `fullContent +=
chunk.content` concatenates a non-string delta; number formatting is
approximated by the exact decimal mantissa/exponent pair. -/
def jsToStr : Json → String
  | .null => "null"
  | .bool b => if b then "true" else "false"
  | .num m e => if e = 0 then toString m else toString m ++ "e" ++ toString e
  | .str s => s
  | .arr xs => jsToStrList xs
  | .obj _ => "[object Object]"

/-- Array elements joined by commas (`Array.prototype.toString`). -/
def jsToStrList : List Json → String
  | [] => ""
  | [x] => jsToStr x
  | x :: xs => jsToStr x ++ "," ++ jsToStrList xs

end

/-- The `for await (const chunk of stream)` loop body (context.tsx lines
411-423): append truthy contents to the accumulator and `break` on a `done`
chunk.  Returns the accumulator and whether the loop exited through `done`
(in which case a later stream error is never observed). -/
def runStreamLoop : List StreamChunk → String → String × Bool
  | [], acc => (acc, false)
  | ch :: rest, acc =>
    let acc' := if jsTruthy (some ch.content) then acc ++ jsToStr ch.content else acc
    if ch.done then (acc', true) else runStreamLoop rest acc'

/-- System-prompt assembly (context.tsx lines 393-405): the base prompt for
the mode, plus the enabled memories as bullet lines when memory is enabled.
The concrete prompt texts of systemPrompts.ts are presentation data and are
supplied as the `sysPrompts` table. -/
def buildSystemPrompt (sysPrompts : PromptMode → String) (mode : PromptMode)
    (memoryEnabled : Bool) (memories : List Memory) : String :=
  let base := sysPrompts mode
  if memoryEnabled then
    let enabledMemories := memories.filter fun m => m.enabled
    if enabledMemories.isEmpty then base
    else
      enabledMemories.foldl (fun p m => p ++ "- " ++ m.title ++ ": " ++ m.content ++ "\n")
        (base ++ "\n\n## User Memory\nUse this information to personalize responses:\n")
  else base

/-- `sendMessage` (context.tsx lines 325-448).  The `setState(prev => ...)`
updates are accumulated into the final state; the request history and the
system prompt read the *captured* pre-call state, exactly as the closure
does. -/
def sendMessage (sysPrompts : PromptMode → String) (st : AppState) (content : String)
    (env : TurnEnv) : List Effect × AppState :=
  if jsFalsyOptStr st.currentProviderId || jsFalsyOptStr st.currentModelId then ([], st)
  else
    let providerId := st.currentProviderId.getD ""
    let modelId := st.currentModelId.getD ""
    let apiKey? := jsLookup st.apiKeys providerId
    if jsFalsyOptStr apiKey? then ([.toast "Please add an API key" .error], st)
    else
      let apiKey := apiKey?.getD ""
      -- memory trigger scan (lines 334-336)
      let extracted := if shouldAutoSaveMemory content then extractMemoryContent content else none
      -- create a chat when there is no current one (lines 339-358)
      let newChatNeeded := jsFalsyOptStr st.currentChatId
      let chat : Chat := ⟨env.chatId, content.take 50, providerId, modelId,
        st.memoryEnabled, env.nowChat, env.nowChat⟩
      let chatId := if newChatNeeded then env.chatId else st.currentChatId.getD ""
      let chatEffs := if newChatNeeded then [Effect.saveChat chat] else []
      let st1 := if newChatNeeded then
          { st with chats := chat :: st.chats, currentChatId := some env.chatId, view := "chat" }
        else st
      -- persist the user message before anything network-related (lines 360-369)
      let userMsg : Message := ⟨env.userMsgId, chatId, .user, content, env.nowUser⟩
      let st2 := { st1 with messages := st1.messages ++ [userMsg] }
      -- memory side effect (lines 371-384)
      let memory : Memory := match extracted with
        | some e => ⟨env.memoryId, e.type, e.title, e.value, true, env.nowMemory⟩
        | none => ⟨env.memoryId, .fact, "", "", true, env.nowMemory⟩
      let memEffs := match extracted with
        | some e => [Effect.saveMemory memory, Effect.toast ("Saved: " ++ e.title) .success]
        | none => []
      let st3 := match extracted with
        | some _ => { st2 with memories := st2.memories ++ [memory] }
        | none => st2
      let st4 := { st3 with isStreaming := true, streamingContent := "" }
      -- request assembly reads the captured pre-call state (lines 390-409)
      let history := st.messages.map (fun m => (m.role.toStr, m.content)) ++ [("user", content)]
      let sysPrompt := buildSystemPrompt sysPrompts st.promptMode st.memoryEnabled st.memories
      let reqEff := Effect.streamRequest providerId apiKey modelId history sysPrompt
      let loop := runStreamLoop env.delivered ""
      let success := env.error.isNone || loop.2
      if success then
        let assistantMsg : Message := ⟨env.assistantMsgId, chatId, .assistant, loop.1, env.nowAssistant⟩
        (chatEffs ++ [Effect.saveMessage userMsg] ++ memEffs ++ [reqEff, Effect.saveMessage assistantMsg],
          { st4 with
            messages := st4.messages ++ [assistantMsg],
            isStreaming := false, streamingContent := "" })
      else
        let msg := match env.error with
          | some m => if m = "" then "Failed to get response" else m
          | none => "Failed to get response"
        (chatEffs ++ [Effect.saveMessage userMsg] ++ memEffs ++ [reqEff, Effect.toast msg .error],
          { st4 with isStreaming := false, streamingContent := "" })

/-- The UI send handler (animated-ai-chat.tsx): `if (value.trim() &&
!isStreaming) onSendMessage(value.trim())`.  Returns the text passed to
`sendMessage`, or `none` when the send is refused. -/
def handleSend (value : String) (isStreaming : Bool) : Option String :=
  let trimmed := String.mk (jsTrim value.data)
  if trimmed != "" && !isStreaming then some trimmed else none

/-! ### The concurrency guard (C3) -/

def isStreamReq : Effect → Bool
  | .streamRequest _ _ _ _ _ => true
  | _ => false

def isSaveMsg : Effect → Bool
  | .saveMessage _ => true
  | _ => false

def isErrorToast : Effect → Bool
  | .toast _ .error => true
  | _ => false

/-- A state in the middle of a streaming turn, with provider, model and key
selected. -/
def streamingState : AppState :=
  { apiKeys := [("gemini", "k")], currentProviderId := some "gemini",
    currentModelId := some "m", currentChatId := some "c1", promptMode := .standard,
    chats := [], messages := [], memories := [], memoryEnabled := false,
    view := "chat", isStreaming := true, streamingContent := "partial" }

def quietEnv : TurnEnv :=
  { chatId := "chat1", userMsgId := "msg1", assistantMsgId := "msg2", memoryId := "mem1",
    nowChat := 10, nowUser := 11, nowMemory := 12, nowAssistant := 13,
    delivered := [], error := none }

/-- C3 counterexample.  Invoking `sendMessage` while `isStreaming` is already
true is *not* rejected: the call commits a user message and issues a second
stream request — `sendMessage` never consults the streaming flag. -/
theorem second_sendMessage_not_rejected :
    streamingState.isStreaming = true ∧
    ((sendMessage (fun _ => "P") streamingState "hi" quietEnv).1.any isStreamReq) = true ∧
    ((sendMessage (fun _ => "P") streamingState "hi" quietEnv).1.any isSaveMsg) = true :=
  ⟨rfl, by decide, by decide⟩

/-- C3 (amended).  The at-most-one-streaming-turn property is enforced only
at the UI boundary: the chat input's `handleSend` refuses to invoke
`sendMessage` while a turn is streaming, whereas `sendMessage` itself ignores
the flag — its effect trace is identical whether `isStreaming` is true or
false. -/
theorem streaming_guard_is_ui_only :
    (∀ v : String, handleSend v true = none) ∧
    (∀ (sysPrompts : PromptMode → String) (st : AppState) (content : String) (env : TurnEnv),
      (sendMessage sysPrompts { st with isStreaming := true } content env).1 =
      (sendMessage sysPrompts { st with isStreaming := false } content env).1) := by
  constructor
  · intro v
    simp [handleSend]
  · intro sysPrompts st content env
    rcases st with ⟨ak, pid, mid, cid, pm, ch, ms, mem, me, vw, isS, sc⟩
    dsimp only [sendMessage]
    cases h1 : (jsFalsyOptStr pid || jsFalsyOptStr mid)
    · cases h2 : jsFalsyOptStr (jsLookup ak (pid.getD ""))
      · cases h3 : (env.error.isNone || (runStreamLoop env.delivered "").2) <;> simp
      · simp
    · simp

/-! ### Durability before the network call (C4) and failure cleanup (C5) -/

/-- The guards that let `sendMessage` proceed to a turn: a truthy provider
and model selection and a truthy API key for the provider. -/
def sendProceeds (st : AppState) : Bool :=
  !(jsFalsyOptStr st.currentProviderId || jsFalsyOptStr st.currentModelId) &&
  !(jsFalsyOptStr (jsLookup st.apiKeys (st.currentProviderId.getD "")))

/-- C4.  Whenever a turn proceeds, its effect trace contains exactly one
stream request, and the prefix strictly before it already contains the
`saveMessage` of the user's message (and, when the conversation was null, the
`saveChat` of the new conversation): the local writes complete before the
adapter's network request is issued, so a streaming failure cannot lose the
user's input. -/
theorem user_message_saved_before_stream_request
    (sysPrompts : PromptMode → String) (st : AppState) (content : String) (env : TurnEnv)
    (h : sendProceeds st = true) :
    ((sendMessage sysPrompts st content env).1.filter isStreamReq).length = 1 ∧
    (∃ m : Message, Effect.saveMessage m ∈
        (sendMessage sysPrompts st content env).1.takeWhile (fun e => !isStreamReq e) ∧
      m.role = .user ∧ m.content = content) ∧
    (jsFalsyOptStr st.currentChatId = true →
      ∃ c : Chat, Effect.saveChat c ∈
        (sendMessage sysPrompts st content env).1.takeWhile (fun e => !isStreamReq e)) := by
  dsimp only [sendMessage]
  cases h1 : (jsFalsyOptStr st.currentProviderId || jsFalsyOptStr st.currentModelId)
  case true => simp [sendProceeds, h1] at h
  case false =>
  cases h2 : jsFalsyOptStr (jsLookup st.apiKeys (st.currentProviderId.getD ""))
  case true => simp [sendProceeds, h1, h2] at h
  case false =>
  simp only [Bool.false_eq_true, if_false]
  refine ?_
  cases hnew : jsFalsyOptStr st.currentChatId <;>
    cases hex : (if shouldAutoSaveMemory content then extractMemoryContent content else none) <;>
      cases h3 : (env.error.isNone || (runStreamLoop env.delivered "").2) <;>
        simp [isStreamReq, List.takeWhile, hnew]

/-- A fresh session with no open conversation, used as a concrete C4/C5
input. -/
def freshState : AppState :=
  { apiKeys := [("gemini", "k")], currentProviderId := some "gemini",
    currentModelId := some "m", currentChatId := none, promptMode := .standard,
    chats := [], messages := [], memories := [], memoryEnabled := false,
    view := "welcome", isStreaming := false, streamingContent := "" }

theorem user_message_saved_before_stream_request_witness :
    sendProceeds freshState = true ∧
    (((sendMessage (fun _ => "P") freshState "hi" quietEnv).1.filter isStreamReq).length = 1 ∧
     (∃ m : Message, Effect.saveMessage m ∈
         (sendMessage (fun _ => "P") freshState "hi" quietEnv).1.takeWhile (fun e => !isStreamReq e) ∧
       m.role = .user ∧ m.content = "hi") ∧
     (jsFalsyOptStr freshState.currentChatId = true →
       ∃ c : Chat, Effect.saveChat c ∈
         (sendMessage (fun _ => "P") freshState "hi" quietEnv).1.takeWhile (fun e => !isStreamReq e))) :=
  ⟨by decide,
    user_message_saved_before_stream_request (fun _ => "P") freshState "hi" quietEnv (by decide)⟩

/-- C5.  When the adapter or decoder raises an error after some (or no)
chunks and no terminal chunk was seen: no assistant message is ever
persisted (the partial accumulator is discarded), the session returns to the
non-streaming state with an empty accumulator, exactly one failure
notification is surfaced, and the message list is left as it was plus the
already-committed user message — every message committed before the turn is
untouched, so the user can retry immediately. -/
theorem failed_turn_discards_accumulator
    (sysPrompts : PromptMode → String) (st : AppState) (content : String) (env : TurnEnv)
    (hp : sendProceeds st = true)
    (he : env.error.isSome = true)
    (hd : (runStreamLoop env.delivered "").2 = false) :
    (∀ m : Message, Effect.saveMessage m ∈ (sendMessage sysPrompts st content env).1 →
      m.role = .user) ∧
    (sendMessage sysPrompts st content env).2.isStreaming = false ∧
    (sendMessage sysPrompts st content env).2.streamingContent = "" ∧
    ((sendMessage sysPrompts st content env).1.filter isErrorToast).length = 1 ∧
    (∃ u : Message, u.role = .user ∧ u.content = content ∧
      (sendMessage sysPrompts st content env).2.messages = st.messages ++ [u]) := by
  dsimp only [sendMessage]
  cases h1 : (jsFalsyOptStr st.currentProviderId || jsFalsyOptStr st.currentModelId)
  case true => simp [sendProceeds, h1] at hp
  case false =>
  cases h2 : jsFalsyOptStr (jsLookup st.apiKeys (st.currentProviderId.getD ""))
  case true => simp [sendProceeds, h1, h2] at hp
  case false =>
  rcases henv : env.error with _ | e
  · rw [henv] at he; simp at he
  · simp only [Bool.false_eq_true, if_false, Option.isNone_some, Bool.false_or, hd]
    cases hnew : jsFalsyOptStr st.currentChatId <;>
      cases hex : (if shouldAutoSaveMemory content then extractMemoryContent content else none) <;>
        simp [isErrorToast, hnew]

/-- A turn environment in which the stream delivers one text chunk and then
the network errors out, with no terminal chunk. -/
def errorEnv : TurnEnv :=
  { chatId := "chat1", userMsgId := "msg1", assistantMsgId := "msg2", memoryId := "mem1",
    nowChat := 10, nowUser := 11, nowMemory := 12, nowAssistant := 13,
    delivered := [⟨.str "He", false⟩], error := some "network error" }

theorem failed_turn_discards_accumulator_witness :
    sendProceeds freshState = true ∧ errorEnv.error.isSome = true ∧
    (runStreamLoop errorEnv.delivered "").2 = false ∧
    ((∀ m : Message, Effect.saveMessage m ∈ (sendMessage (fun _ => "P") freshState "hi" errorEnv).1 →
        m.role = .user) ∧
      (sendMessage (fun _ => "P") freshState "hi" errorEnv).2.isStreaming = false ∧
      (sendMessage (fun _ => "P") freshState "hi" errorEnv).2.streamingContent = "" ∧
      ((sendMessage (fun _ => "P") freshState "hi" errorEnv).1.filter isErrorToast).length = 1 ∧
      (∃ u : Message, u.role = .user ∧ u.content = "hi" ∧
        (sendMessage (fun _ => "P") freshState "hi" errorEnv).2.messages =
          freshState.messages ++ [u])) :=
  ⟨by decide, rfl, by decide,
    failed_turn_discards_accumulator (fun _ => "P") freshState "hi" errorEnv
      (by decide) rfl (by decide)⟩

/-! ## The one-time sign-in merge (context.tsx lines 87-124)

`loadFromCloud` fetches the remote snapshot (`loadUserData`, which returns
`null` when no document exists or on error) and applies it to the state with
three sequential conditional updates.  The fields it touches are modelled by
`SyncedState`; `promptMode` is kept at its runtime string representation,
since the code casts the remote string into the state unchecked
(`(promptMode as any)`). -/

structure CloudPrefs where
  apiKeys : Option (List (String × String))
  promptMode : Option String
  memoryEnabled : Option Bool
  currentProviderId : Option String
  currentModelId : Option String
deriving DecidableEq, Repr

/-- The `UserData` document shape of firestoreService.ts; a missing field is
`none`. -/
structure CloudData where
  preferences : Option CloudPrefs
  chats : Option (List Chat)
  memories : Option (List Memory)
deriving DecidableEq, Repr

structure SyncedState where
  apiKeys : List (String × String)
  promptMode : String
  memoryEnabled : Bool
  currentProviderId : Option String
  currentModelId : Option String
  chats : List Chat
  memories : List Memory
deriving DecidableEq, Repr

/-- `cloud || prev` for a string field: the empty string is falsy. -/
def jsOrStr (cloud : Option String) (prev : String) : String :=
  match cloud with
  | some s => if s = "" then prev else s
  | none => prev

/-- `cloud || prev` for a nullable string field. -/
def jsOrOptStr (cloud : Option String) (prev : Option String) : Option String :=
  match cloud with
  | some s => if s = "" then prev else some s
  | none => prev

/-- The merge applied on sign-in (context.tsx lines 94-119): preference
fields with `||` (so any truthy remote value wins; note `memoryEnabled` uses
`??` and hence keeps a remote `false`), then `chats` and `memories` are
replaced whole whenever the snapshot carries the field — `if
(cloudData.chats)` is a presence test, since any array, the empty one
included, is truthy. -/
def loadFromCloud (prev : SyncedState) (cloudData : Option CloudData) : SyncedState :=
  match cloudData with
  | none => prev
  | some cd =>
    let s1 := match cd.preferences with
      | none => prev
      | some p =>
        { prev with
          apiKeys := p.apiKeys.getD prev.apiKeys,
          promptMode := jsOrStr p.promptMode prev.promptMode,
          memoryEnabled := p.memoryEnabled.getD prev.memoryEnabled,
          currentProviderId := jsOrOptStr p.currentProviderId prev.currentProviderId,
          currentModelId := jsOrOptStr p.currentModelId prev.currentModelId }
    let s2 := match cd.chats with
      | some cs => { s1 with chats := cs }
      | none => s1
    match cd.memories with
    | some mems => { s2 with memories := mems }
    | none => s2

def chatA : Chat := ⟨"a", "Chat A", "gemini", "m", true, 0, 0⟩

def localWithChatA : SyncedState :=
  { apiKeys := [], promptMode := "standard", memoryEnabled := true,
    currentProviderId := none, currentModelId := none, chats := [chatA], memories := [] }

/-- C6 counterexample.  The claim says an empty remote collection keeps the
local one ("local chats \x7bA\x7d with an empty remote yields \x7bA\x7d").  But a
remote snapshot that carries `chats: []` — e.g. one pushed by a fresh device
— is truthy, so the merge replaces local chats wholesale with the empty
list: local Chat A is silently discarded. -/
theorem empty_remote_chats_wipe_local :
    (loadFromCloud localWithChatA (some ⟨none, some [], none⟩)).chats = [] ∧
    localWithChatA.chats = [chatA] ∧
    (loadFromCloud localWithChatA (some ⟨none, some [], none⟩)).chats ≠ localWithChatA.chats :=
  ⟨rfl, rfl, by decide⟩

/-- The merge as the amended claim words it: per preference field, a
present-and-truthy remote value wins, else local; each bulk collection is
replaced by the remote one exactly when the snapshot carries that field at
all (present-wins, even when the carried collection is empty); local is kept
only when there is no snapshot or the field is absent. -/
def mergeSpecPresentWins (prev : SyncedState) (cloudData : Option CloudData) : SyncedState :=
  let prefs := cloudData.bind fun cd => cd.preferences
  { apiKeys := (prefs.bind fun p => p.apiKeys).getD prev.apiKeys,
    promptMode := jsOrStr (prefs.bind fun p => p.promptMode) prev.promptMode,
    memoryEnabled := (prefs.bind fun p => p.memoryEnabled).getD prev.memoryEnabled,
    currentProviderId := jsOrOptStr (prefs.bind fun p => p.currentProviderId) prev.currentProviderId,
    currentModelId := jsOrOptStr (prefs.bind fun p => p.currentModelId) prev.currentModelId,
    chats := (cloudData.bind fun cd => cd.chats).getD prev.chats,
    memories := (cloudData.bind fun cd => cd.memories).getD prev.memories }

/-- C6 (amended).  The sign-in merge is exactly present-wins: remote
preference values take precedence when truthy with local as fallback, and
bulk collections are replaced whenever the remote snapshot carries the field
— not only when the remote collection is non-empty. -/
theorem signin_merge_is_present_wins (prev : SyncedState) (cloudData : Option CloudData) :
    loadFromCloud prev cloudData = mergeSpecPresentWins prev cloudData := by
  rcases cloudData with _ | ⟨prefs, chats?, memories?⟩
  · rfl
  · rcases prefs with _ | p <;> rcases chats? with _ | cs <;> rcases memories? with _ | mems <;>
      rfl

/-! ## The IndexedDB layer (db.ts)

An object store is keyed by `id` and iterated in key order; it is modelled
as a list kept sorted by `id`, with `put` as replace-or-insert.
`getMessagesByChat` reads the `chatId` index (all records with that chat id,
in primary-key order) and then sorts by `createdAt` ascending with
JavaScript's stable `Array.prototype.sort`; a stable sort that orders by a
total preorder is unique, so it is modelled by insertion sort.
`getAllChats` sorts by `updatedAt` descending (`b - a` comparator). -/

structure DBState where
  chats : List Chat
  messages : List Message
deriving DecidableEq, Repr

def putMessage : List Message → Message → List Message
  | [], m => [m]
  | x :: xs, m =>
    if m.id = x.id then m :: xs
    else if m.id < x.id then m :: x :: xs
    else x :: putMessage xs m

def putChat : List Chat → Chat → List Chat
  | [], c => [c]
  | x :: xs, c =>
    if c.id = x.id then c :: xs
    else if c.id < x.id then c :: x :: xs
    else x :: putChat xs c

/-- `saveChat` (db.ts lines 61-68): `store.put(\x7b ...chat, updatedAt: new
Date().toISOString() \x7d)` — the record is written with its `updatedAt`
refreshed to the time of the save. -/
def saveChat (db : DBState) (chat : Chat) (now : Nat) : DBState :=
  { db with chats := putChat db.chats { chat with updatedAt := now } }

/-- `saveMessage` (db.ts lines 100-107): `store.put(message)` unchanged. -/
def saveMessage (db : DBState) (message : Message) : DBState :=
  { db with messages := putMessage db.messages message }

/-- `getMessagesByChat` (db.ts lines 85-98). -/
def getMessagesByChat (db : DBState) (chatId : String) : List Message :=
  List.insertionSort (fun a b => a.createdAt ≤ b.createdAt)
    (db.messages.filter fun m => m.chatId = chatId)

/-- `getAllChats` (db.ts lines 47-59). -/
def getAllChats (db : DBState) : List Chat :=
  List.insertionSort (fun a b => b.updatedAt ≤ a.updatedAt) db.chats

def emptyDB : DBState := ⟨[], []⟩

/-- C9 counterexample.  Persisting Chat A (whose stored `updatedAt` is 0) at
save time 1 and reading it back returns a record with `updatedAt = 1`: the
read-back Conversation record is *not* the persisted one — `saveChat`
refreshes `updatedAt` on every write. -/
theorem saveChat_refreshes_updatedAt :
    getAllChats (saveChat emptyDB chatA 1) = [{ chatA with updatedAt := 1 }] ∧
    ({ chatA with updatedAt := 1 } : Chat) ≠ chatA ∧
    getAllChats (saveChat emptyDB chatA 1) ≠ [chatA] :=
  ⟨rfl, by decide, by decide⟩

instance : IsTotal Message (fun a b => a.createdAt ≤ b.createdAt) :=
  ⟨fun a b => Nat.le_total a.createdAt b.createdAt⟩

instance : IsTrans Message (fun a b => a.createdAt ≤ b.createdAt) :=
  ⟨fun _ _ _ hab hbc => Nat.le_trans hab hbc⟩

instance : IsAntisymm Message (fun a b => a.createdAt < b.createdAt) :=
  ⟨fun _ _ hab hba => absurd hba (Nat.lt_asymm hab)⟩

theorem putMessage_perm (l : List Message) (m : Message)
    (h : m.id ∉ l.map fun x => x.id) : (putMessage l m).Perm (m :: l) := by
  induction l with
  | nil => rfl
  | cons x xs ih =>
    simp only [List.map_cons, List.mem_cons, not_or] at h
    rw [putMessage, if_neg h.1]
    by_cases hlt : m.id < x.id
    · rw [if_pos hlt]
    · rw [if_neg hlt]
      exact (List.Perm.cons x (ih h.2)).trans (List.Perm.swap m x xs)

theorem foldl_saveMessage_messages (msgs : List Message) :
    ∀ db : DBState, (msgs.foldl saveMessage db).messages = msgs.foldl putMessage db.messages := by
  induction msgs with
  | nil => intro db; rfl
  | cons m rest ih => intro db; rw [List.foldl_cons, List.foldl_cons, ih]; rfl

theorem foldl_saveMessage_chats (msgs : List Message) :
    ∀ db : DBState, (msgs.foldl saveMessage db).chats = db.chats := by
  induction msgs with
  | nil => intro db; rfl
  | cons m rest ih => intro db; rw [List.foldl_cons, ih]; rfl

theorem foldl_putMessage_perm (msgs : List Message) :
    ∀ acc : List Message,
      ((acc.map fun x => x.id) ++ msgs.map fun x => x.id).Nodup →
      (msgs.foldl putMessage acc).Perm (acc ++ msgs) := by
  induction msgs with
  | nil => intro acc _; simp
  | cons m rest ih =>
    intro acc hn
    rw [List.map_cons] at hn
    have hdisj := (List.nodup_append.mp hn).2.2
    have hmid : m.id ∉ acc.map fun x => x.id :=
      fun hmem => hdisj hmem (List.mem_cons_self m.id _)
    have hput := putMessage_perm acc m hmid
    have hids : (((putMessage acc m).map fun x => x.id)).Perm (m.id :: acc.map fun x => x.id) :=
      hput.map fun x => x.id
    have h1 : (m.id :: ((acc.map fun x => x.id) ++ rest.map fun x => x.id)).Nodup :=
      (List.perm_middle.nodup_iff).mp hn
    have hn' : (((putMessage acc m).map fun x => x.id) ++ rest.map fun x => x.id).Nodup :=
      ((hids.append_right _).nodup_iff).mpr h1
    exact (ih _ hn').trans ((hput.append_right rest).trans List.perm_middle.symm)

/-- C9 (amended).  Persisting a Conversation and then a sequence of Messages
for it into a clean store, then reading back: `getMessagesByChat` returns
exactly the persisted messages, unmutated and ordered by `createdAt`
ascending (stated for distinct ids and strictly increasing timestamps, which
pin the order), and the store holds the Conversation record unchanged except
that `updatedAt` is refreshed to the save time. -/
theorem roundtrip_read_after_write (chat : Chat) (now : Nat) (msgs : List Message)
    (cid : String)
    (hcid : ∀ m ∈ msgs, m.chatId = cid)
    (hsorted : msgs.Pairwise fun a b => a.createdAt < b.createdAt)
    (hids : (msgs.map fun m => m.id).Nodup) :
    getMessagesByChat (msgs.foldl saveMessage (saveChat emptyDB chat now)) cid = msgs ∧
    (msgs.foldl saveMessage (saveChat emptyDB chat now)).chats =
      [{ chat with updatedAt := now }] := by
  constructor
  · have hstore : ((msgs.foldl saveMessage (saveChat emptyDB chat now)).messages).Perm msgs := by
      rw [foldl_saveMessage_messages]
      simpa using foldl_putMessage_perm msgs [] (by simpa using hids)
    have hfilter : ((msgs.foldl saveMessage (saveChat emptyDB chat now)).messages.filter
        (fun m => m.chatId = cid)).Perm msgs := by
      refine (hstore.filter _).trans ?_
      rw [List.filter_eq_self.mpr]
      intro m hm
      simpa using hcid m hm
    have hperm : (getMessagesByChat (msgs.foldl saveMessage (saveChat emptyDB chat now))
        cid).Perm msgs :=
      (List.perm_insertionSort _ _).trans hfilter
    have hsort_le : List.Sorted (fun a b : Message => a.createdAt ≤ b.createdAt)
        (getMessagesByChat (msgs.foldl saveMessage (saveChat emptyDB chat now)) cid) := by
      rw [getMessagesByChat]
      exact List.sorted_insertionSort _ _
    have hne_msgs : msgs.Pairwise fun a b => a.createdAt ≠ b.createdAt :=
      hsorted.imp fun h => Nat.ne_of_lt h
    have hne_s : (getMessagesByChat (msgs.foldl saveMessage (saveChat emptyDB chat now))
        cid).Pairwise fun a b => a.createdAt ≠ b.createdAt :=
      (List.Perm.pairwise_iff (fun h => Ne.symm h) hperm).mpr hne_msgs
    have hlt_s : List.Sorted (fun a b : Message => a.createdAt < b.createdAt)
        (getMessagesByChat (msgs.foldl saveMessage (saveChat emptyDB chat now)) cid) :=
      List.Pairwise.imp₂ (fun _ _ hle hne => lt_of_le_of_ne hle hne) hsort_le hne_s
    exact List.eq_of_perm_of_sorted hperm hlt_s hsorted
  · rw [foldl_saveMessage_chats]
    rfl

def msgW1 : Message := ⟨"m1", "c", .user, "hello", 1⟩

def msgW2 : Message := ⟨"m2", "c", .assistant, "hi there", 2⟩

theorem roundtrip_read_after_write_witness :
    (∀ m ∈ [msgW1, msgW2], m.chatId = "c") ∧
    ([msgW1, msgW2].Pairwise fun a b => a.createdAt < b.createdAt) ∧
    (([msgW1, msgW2].map fun m => m.id).Nodup) ∧
    (getMessagesByChat ([msgW1, msgW2].foldl saveMessage (saveChat emptyDB chatA 5)) "c" =
        [msgW1, msgW2] ∧
      ([msgW1, msgW2].foldl saveMessage (saveChat emptyDB chatA 5)).chats =
        [{ chatA with updatedAt := 5 }]) :=
  ⟨by decide, by decide, by decide,
    roundtrip_read_after_write chatA 5 [msgW1, msgW2] "c" (by decide) (by decide) (by decide)⟩

end NexusAI
